import Mathlib

/-!
Verification development for the daily-pennsylvanian-basic-scraper repository.

The repository contains one source file, script.py, which scrapes a headline
from a news site and records it, keyed by calendar date, through a
DailyEventMonitor object.  The daily_event_monitor module itself is not part
of the sources made available here, so the event store (load, add_today,
save) is modelled from the specification; script.py (the scraper and the
main orchestration block) is embedded directly from its code.

Conventions of the shallow embedding:
- The filesystem is a map from path strings to optional file contents.
- Exceptions become Except or Option results; a caught exception becomes a
  branch, an uncaught one becomes a RunOutcome.uncaughtError value.
- Wall-clock state (the current calendar date) is an explicit parameter.
-/

/-! ## Characters used by the JSON serialization -/

def quoteChar : Char := Char.ofNat 34

def backslashChar : Char := Char.ofNat 92

def lbraceChar : Char := Char.ofNat 123

def rbraceChar : Char := Char.ofNat 125

def colonChar : Char := Char.ofNat 58

def spaceChar : Char := Char.ofNat 32

def commaChar : Char := Char.ofNat 44

/-! ## The event store

Modelled from the spec: the Event Store is an ordered mapping from date
strings to headline strings, with unique keys, loaded from and saved to a
JSON backing file.  The daily_event_monitor module is not under the
available sources, so these definitions follow section 4.1 of the spec. -/

/-- Modelled from the spec: an ordered date-keyed record of headlines,
represented as an association list that preserves insertion order. -/
abbrev Store : Type := List (String × String)

/-- Modelled from the spec: insert or overwrite the entry for a key,
preserving the relative order of untouched entries (overwrite in place,
append a fresh key at the end). -/
def setEntry : Store → String → String → Store
  | [], d, v => [(d, v)]
  | (k, w) :: rest, d, v =>
    if k = d then (d, v) :: rest else (k, w) :: setEntry rest d v

/-- Modelled from the spec: add_today inserts or overwrites the entry for
the current local date (passed explicitly as the wall-clock input) and is a
no-op on an empty headline. -/
def add_today (today : String) (headline : String) (s : Store) : Store :=
  if headline = "" then s else setEntry s today headline

/-- First value stored under a date, in insertion order. -/
def lookupDate : Store → String → Option String
  | [], _ => none
  | (k, v) :: rest, d => if k = d then some v else lookupDate rest d

/-- Number of entries stored under a date. -/
def countDate (s : Store) (d : String) : Nat :=
  (s.filter (fun kv => kv.1 = d)).length

/-- Keys of a store, in order. -/
def storeKeys (s : Store) : List String :=
  s.map (fun kv => kv.1)

/-! ## Basic store lemmas -/

theorem lookupDate_setEntry_self (s : Store) (d v : String) :
    lookupDate (setEntry s d v) d = some v := by
  induction s with
  | nil => simp [setEntry, lookupDate]
  | cons kv rest ih =>
    obtain ⟨k, w⟩ := kv
    by_cases h : k = d
    · simp [setEntry, h, lookupDate]
    · simp [setEntry, h, lookupDate, ih]

theorem countDate_setEntry_self (s : Store) (d v : String) :
    countDate (setEntry s d v) d = max (countDate s d) 1 := by
  induction s with
  | nil => simp [setEntry, countDate]
  | cons kv rest ih =>
    obtain ⟨k, w⟩ := kv
    by_cases h : k = d
    · simp [setEntry, h, countDate, List.filter]
    · simp only [setEntry, h, if_false, countDate, List.filter] at ih ⊢
      simp [h, ih, countDate]

theorem storeKeys_setEntry (s : Store) (d v : String) :
    storeKeys (setEntry s d v) =
      if d ∈ storeKeys s then storeKeys s else storeKeys s ++ [d] := by
  induction s with
  | nil => simp [setEntry, storeKeys]
  | cons kv rest ih =>
    obtain ⟨k, w⟩ := kv
    by_cases h : k = d
    · simp [setEntry, h, storeKeys]
    · have hne : ¬ d = k := fun hd => h hd.symm
      simp only [setEntry, h, if_false]
      simp only [storeKeys, List.map_cons] at ih ⊢
      by_cases hm : d ∈ List.map (fun kv => kv.1) rest
      · simp [hm, hne, ih]
      · simp [hm, hne, ih]

theorem storeKeys_nodup_setEntry (s : Store) (d v : String)
    (h : (storeKeys s).Nodup) : (storeKeys (setEntry s d v)).Nodup := by
  rw [storeKeys_setEntry]
  by_cases hm : d ∈ storeKeys s
  · simpa [hm] using h
  · simp only [hm, if_false]
    rw [List.nodup_append]
    refine ⟨h, List.nodup_singleton d, ?_⟩
    intro a ha hb
    rw [List.mem_singleton] at hb
    exact hm (hb ▸ ha)

theorem countDate_eq_zero_of_not_mem (s : Store) (d : String)
    (h : d ∉ storeKeys s) : countDate s d = 0 := by
  induction s with
  | nil => simp [countDate]
  | cons kv rest ih =>
    obtain ⟨k, w⟩ := kv
    simp only [storeKeys, List.map_cons, List.mem_cons] at h
    push_neg at h
    have hk : ¬ k = d := fun hk => h.1 hk.symm
    simp only [countDate, List.filter] at ih ⊢
    simp [hk, ih (by simpa [storeKeys] using h.2)]

theorem countDate_le_one_of_nodup (s : Store) (d : String)
    (h : (storeKeys s).Nodup) : countDate s d ≤ 1 := by
  induction s with
  | nil => simp [countDate]
  | cons kv rest ih =>
    obtain ⟨k, w⟩ := kv
    simp only [storeKeys, List.map_cons, List.nodup_cons] at h
    by_cases hk : k = d
    · have : countDate rest d = 0 :=
        countDate_eq_zero_of_not_mem rest d (by simpa [storeKeys, hk] using h.1)
      simp only [countDate, List.filter, hk] at this ⊢
      simp [this, countDate]
    · simp only [countDate, List.filter] at ih ⊢
      simp only [hk]
      simpa [countDate] using ih h.2

/-! ## Claim theorems about add_today alone -/

/-- C1: adding two non-empty headlines on the same calendar date leaves
exactly one entry for that date, holding the second headline (the last call
wins), and never creates a duplicate key. -/
theorem add_today_same_day_last_wins (today h1 h2 : String) (s : Store)
    (hne1 : h1 ≠ "") (hne2 : h2 ≠ "") (hnd : (storeKeys s).Nodup) :
    countDate (add_today today h2 (add_today today h1 s)) today = 1 ∧
    lookupDate (add_today today h2 (add_today today h1 s)) today = some h2 ∧
    (storeKeys (add_today today h2 (add_today today h1 s))).Nodup := by
  simp only [add_today, hne1, hne2, if_false]
  refine ⟨?_, lookupDate_setEntry_self _ _ _, ?_⟩
  · rw [countDate_setEntry_self, countDate_setEntry_self]
    have := countDate_le_one_of_nodup s today hnd
    omega
  · exact storeKeys_nodup_setEntry _ _ _ (storeKeys_nodup_setEntry _ _ _ hnd)

/-- Witness for C1 at a concrete store and pair of headlines. -/
theorem add_today_same_day_last_wins_witness :
    countDate (add_today "2024-01-03" "Headline B"
      (add_today "2024-01-03" "Headline A" [("2024-01-01", "Old")])) "2024-01-03" = 1 ∧
    lookupDate (add_today "2024-01-03" "Headline B"
      (add_today "2024-01-03" "Headline A" [("2024-01-01", "Old")])) "2024-01-03" =
      some "Headline B" ∧
    (storeKeys (add_today "2024-01-03" "Headline B"
      (add_today "2024-01-03" "Headline A" [("2024-01-01", "Old")]))).Nodup :=
  add_today_same_day_last_wins "2024-01-03" "Headline A" "Headline B"
    [("2024-01-01", "Old")] (by decide) (by decide) (by decide)

/-- C4: add_today with the empty headline is a no-op on the store. -/
theorem add_today_empty_noop (today : String) (s : Store) :
    add_today today "" s = s := by
  simp [add_today]

/-! ## JSON serialization of the store

Modelled from the spec: save serializes the full ordered mapping as a JSON
object from date strings to headline strings, and load parses it back.
The escaping covers the two structurally significant characters (the double
quote and the backslash); other characters are carried verbatim. -/

/-- Escape the characters of a string for inclusion in a JSON string
literal. -/
def escapeList : List Char → List Char
  | [] => []
  | c :: rest =>
    if c = quoteChar ∨ c = backslashChar then backslashChar :: c :: escapeList rest
    else c :: escapeList rest

/-- Characters of one serialized key-value entry. -/
def serEntryChars (k v : List Char) : List Char :=
  quoteChar :: escapeList k ++ quoteChar :: colonChar :: spaceChar :: quoteChar ::
    escapeList v ++ [quoteChar]

/-- Characters of the comma-separated serialized entries. -/
def serEntriesChars : List (List Char × List Char) → List Char
  | [] => []
  | [kv] => serEntryChars kv.1 kv.2
  | kv :: rest => serEntryChars kv.1 kv.2 ++ commaChar :: spaceChar :: serEntriesChars rest

/-- Modelled from the spec: the complete JSON text persisted for a store. -/
def serialize (s : Store) : String :=
  String.mk (lbraceChar :: serEntriesChars (s.map (fun kv => (kv.1.data, kv.2.data))) ++
    [rbraceChar])


/-- Parse the remainder of a JSON string literal (the opening quote already
consumed), returning the unescaped characters and the rest of the input. -/
def parseStr : List Char → Option (List Char × List Char)
  | [] => none
  | c :: rest =>
    if c = backslashChar then
      match rest with
      | [] => none
      | d :: rest2 => (parseStr rest2).map (fun p => (d :: p.1, p.2))
    else if c = quoteChar then some ([], rest)
    else (parseStr rest).map (fun p => (c :: p.1, p.2))

/-- Expect the three characters separating a key from its value. -/
def expectColonSpaceQuote : List Char → Option (List Char)
  | c1 :: c2 :: c3 :: rest =>
    if c1 = colonChar ∧ c2 = spaceChar ∧ c3 = quoteChar then some rest else none
  | _ => none

/-- Parse what follows a parsed key-value pair: either the closing brace or
a comma-space separator and further entries (handled by the continuation). -/
def parseSep (kv : List Char × List Char)
    (continue1 : List Char → Option (List (List Char × List Char) × List Char)) :
    List Char → Option (List (List Char × List Char) × List Char)
  | [] => none
  | d :: rest5 =>
    if d = rbraceChar then some ([kv], rest5)
    else
      match rest5 with
      | [] => none
      | e :: rest6 =>
        if d = commaChar ∧ e = spaceChar then
          (continue1 rest6).map (fun p => (kv :: p.1, p.2))
        else none

/-- Parse a non-empty comma-separated entry sequence terminated by a closing
brace, with fuel bounding the number of entries. -/
def parseEntriesAux : Nat → List Char → Option (List (List Char × List Char) × List Char)
  | 0, _ => none
  | fuel + 1, cs =>
    match cs with
    | [] => none
    | c :: rest =>
      if c = quoteChar then
        (parseStr rest).bind (fun kp =>
          (expectColonSpaceQuote kp.2).bind (fun rest3 =>
            (parseStr rest3).bind (fun vp =>
              parseSep (kp.1, vp.1) (parseEntriesAux fuel) vp.2)))
      else none

/-- Final step of parsing: all input must be consumed, and the character
lists are repackaged as strings. -/
def finishEntries (p : List (List Char × List Char) × List Char) : Option Store :=
  if p.2 = [] then some (p.1.map (fun kv => (String.mk kv.1, String.mk kv.2))) else none

/-- Modelled from the spec: parse the persisted JSON text back into a store;
any malformed input yields none. -/
def parse (str : String) : Option Store :=
  match str.data with
  | [] => none
  | c :: rest =>
    if c = lbraceChar then
      if rest = [rbraceChar] then some []
      else (parseEntriesAux rest.length rest).bind finishEntries
    else none

/-! ## Round-trip lemmas for the serialization -/

theorem parseStr_escape (k rest : List Char) :
    parseStr (escapeList k ++ quoteChar :: rest) = some (k, rest) := by
  induction k with
  | nil =>
    show parseStr (quoteChar :: rest) = some ([], rest)
    unfold parseStr
    rw [if_neg (by decide), if_pos rfl]
  | cons c k' ih =>
    by_cases h : c = quoteChar ∨ c = backslashChar
    · have he : escapeList (c :: k') = backslashChar :: c :: escapeList k' := by
        rw [escapeList, if_pos h]
      rw [he]
      show (parseStr (escapeList k' ++ quoteChar :: rest)).map
        (fun p => (c :: p.1, p.2)) = some (c :: k', rest)
      rw [ih]
      rfl
    · push_neg at h
      have he : escapeList (c :: k') = c :: escapeList k' := by
        rw [escapeList, if_neg]
        push_neg
        exact h
      rw [he, List.cons_append]
      conv_lhs => unfold parseStr
      rw [if_neg h.2, if_neg h.1, ih]
      rfl

theorem expectColonSpaceQuote_red (r : List Char) :
    expectColonSpaceQuote (colonChar :: spaceChar :: quoteChar :: r) = some r := rfl

theorem parseEntriesAux_last (f : Nat) (k v extra : List Char) :
    parseEntriesAux (f + 1) (serEntryChars k v ++ rbraceChar :: extra) =
      some ([(k, v)], extra) := by
  have hshape : serEntryChars k v ++ rbraceChar :: extra =
      quoteChar :: (escapeList k ++ quoteChar :: (colonChar :: spaceChar :: quoteChar ::
        (escapeList v ++ quoteChar :: rbraceChar :: extra))) := by
    simp [serEntryChars, List.append_assoc]
  rw [hshape]
  show (parseStr (escapeList k ++ quoteChar :: (colonChar :: spaceChar :: quoteChar ::
      (escapeList v ++ quoteChar :: rbraceChar :: extra)))).bind (fun kp =>
    (expectColonSpaceQuote kp.2).bind (fun rest3 =>
      (parseStr rest3).bind (fun vp =>
        parseSep (kp.1, vp.1) (parseEntriesAux f) vp.2))) = some ([(k, v)], extra)
  rw [parseStr_escape]
  show (expectColonSpaceQuote (colonChar :: spaceChar :: quoteChar ::
      (escapeList v ++ quoteChar :: rbraceChar :: extra))).bind (fun rest3 =>
    (parseStr rest3).bind (fun vp =>
      parseSep (k, vp.1) (parseEntriesAux f) vp.2)) = some ([(k, v)], extra)
  rw [expectColonSpaceQuote_red]
  show (parseStr (escapeList v ++ quoteChar :: rbraceChar :: extra)).bind (fun vp =>
    parseSep (k, vp.1) (parseEntriesAux f) vp.2) = some ([(k, v)], extra)
  rw [parseStr_escape]
  rfl

theorem parseEntriesAux_step (f : Nat) (k v cs : List Char) :
    parseEntriesAux (f + 1) (serEntryChars k v ++ commaChar :: spaceChar :: cs) =
      (parseEntriesAux f cs).map (fun p => ((k, v) :: p.1, p.2)) := by
  have hshape : serEntryChars k v ++ commaChar :: spaceChar :: cs =
      quoteChar :: (escapeList k ++ quoteChar :: (colonChar :: spaceChar :: quoteChar ::
        (escapeList v ++ quoteChar :: commaChar :: spaceChar :: cs))) := by
    simp [serEntryChars, List.append_assoc]
  rw [hshape]
  show (parseStr (escapeList k ++ quoteChar :: (colonChar :: spaceChar :: quoteChar ::
      (escapeList v ++ quoteChar :: commaChar :: spaceChar :: cs)))).bind (fun kp =>
    (expectColonSpaceQuote kp.2).bind (fun rest3 =>
      (parseStr rest3).bind (fun vp =>
        parseSep (kp.1, vp.1) (parseEntriesAux f) vp.2))) =
    (parseEntriesAux f cs).map (fun p => ((k, v) :: p.1, p.2))
  rw [parseStr_escape]
  show (expectColonSpaceQuote (colonChar :: spaceChar :: quoteChar ::
      (escapeList v ++ quoteChar :: commaChar :: spaceChar :: cs))).bind (fun rest3 =>
    (parseStr rest3).bind (fun vp =>
      parseSep (k, vp.1) (parseEntriesAux f) vp.2)) =
    (parseEntriesAux f cs).map (fun p => ((k, v) :: p.1, p.2))
  rw [expectColonSpaceQuote_red]
  show (parseStr (escapeList v ++ quoteChar :: commaChar :: spaceChar :: cs)).bind (fun vp =>
    parseSep (k, vp.1) (parseEntriesAux f) vp.2) =
    (parseEntriesAux f cs).map (fun p => ((k, v) :: p.1, p.2))
  rw [parseStr_escape]
  rfl

theorem serEntriesChars_length (es : List (List Char × List Char)) :
    es.length ≤ (serEntriesChars es).length := by
  induction es with
  | nil => simp [serEntriesChars]
  | cons kv rest ih =>
    cases rest with
    | nil => simp [serEntriesChars, serEntryChars]
    | cons r rest' =>
      simp only [serEntriesChars, serEntryChars] at ih ⊢
      simp only [List.length_cons, List.length_append] at ih ⊢
      omega

theorem serEntriesChars_cons_head (kv : List Char × List Char)
    (rest : List (List Char × List Char)) :
    ∃ t, serEntriesChars (kv :: rest) = quoteChar :: t := by
  cases rest with
  | nil => exact ⟨_, rfl⟩
  | cons r rest' =>
    refine ⟨escapeList kv.1 ++ quoteChar :: colonChar :: spaceChar :: quoteChar ::
      escapeList kv.2 ++ [quoteChar] ++ commaChar :: spaceChar ::
      serEntriesChars (r :: rest'), ?_⟩
    simp [serEntriesChars, serEntryChars]

theorem parseEntriesAux_ser (es : List (List Char × List Char)) (extra : List Char)
    (fuel : Nat) (hne : es ≠ []) (hfuel : es.length ≤ fuel) :
    parseEntriesAux fuel (serEntriesChars es ++ rbraceChar :: extra) = some (es, extra) := by
  induction es generalizing fuel extra with
  | nil => exact absurd rfl hne
  | cons kv rest ih =>
    obtain ⟨fuel, rfl⟩ : ∃ f, fuel = f + 1 := by
      cases fuel
      · simp at hfuel
      · exact ⟨_, rfl⟩
    cases rest with
    | nil =>
      show parseEntriesAux (fuel + 1) (serEntryChars kv.1 kv.2 ++ rbraceChar :: extra) =
        some ([(kv.1, kv.2)], extra)
      rw [parseEntriesAux_last]
    | cons r rest' =>
      have hsh : serEntriesChars (kv :: r :: rest') ++ rbraceChar :: extra =
          serEntryChars kv.1 kv.2 ++ commaChar :: spaceChar ::
            (serEntriesChars (r :: rest') ++ rbraceChar :: extra) := by
        simp [serEntriesChars, List.append_assoc]
      rw [hsh, parseEntriesAux_step,
        ih extra fuel (by simp) (by simpa using Nat.le_of_succ_le_succ hfuel)]
      rfl

theorem map_data_mk (l : List (String × String)) :
    (l.map (fun kv => (kv.1.data, kv.2.data))).map
      (fun kv => (String.mk kv.1, String.mk kv.2)) = l := by
  induction l with
  | nil => rfl
  | cons x xs ihx =>
    simp only [List.map_cons, ihx]

theorem parse_serialize (s : Store) : parse (serialize s) = some s := by
  cases s with
  | nil => rfl
  | cons kv rest =>
    obtain ⟨t, ht⟩ := serEntriesChars_cons_head (kv.1.data, kv.2.data)
      (rest.map (fun kv => (kv.1.data, kv.2.data)))
    have hne : serEntriesChars ((kv :: rest).map (fun kv => (kv.1.data, kv.2.data))) ++
        [rbraceChar] ≠ [rbraceChar] := by
      show serEntriesChars ((kv.1.data, kv.2.data) ::
        rest.map (fun kv => (kv.1.data, kv.2.data))) ++ [rbraceChar] ≠ [rbraceChar]
      rw [ht]
      intro hcontra
      have := congrArg List.length hcontra
      simp at this
    have hlen : ((kv :: rest).map (fun kv => (kv.1.data, kv.2.data))).length ≤
        (serEntriesChars ((kv :: rest).map (fun kv => (kv.1.data, kv.2.data))) ++
          [rbraceChar]).length := by
      have := serEntriesChars_length ((kv :: rest).map (fun kv => (kv.1.data, kv.2.data)))
      simp only [List.length_append, List.length_singleton]
      omega
    have hparse := parseEntriesAux_ser ((kv :: rest).map (fun kv => (kv.1.data, kv.2.data)))
      []
      (serEntriesChars ((kv :: rest).map (fun kv => (kv.1.data, kv.2.data))) ++
        [rbraceChar]).length
      (by simp) hlen
    have hback : serEntriesChars ((kv :: rest).map (fun kv => (kv.1.data, kv.2.data))) ++
        rbraceChar :: ([] : List Char) =
        serEntriesChars ((kv :: rest).map (fun kv => (kv.1.data, kv.2.data))) ++
          [rbraceChar] := rfl
    rw [hback] at hparse
    show (if serEntriesChars ((kv :: rest).map (fun kv => (kv.1.data, kv.2.data))) ++
        [rbraceChar] = [rbraceChar] then some ([] : Store)
      else (parseEntriesAux
        (serEntriesChars ((kv :: rest).map (fun kv => (kv.1.data, kv.2.data))) ++
          [rbraceChar]).length
        (serEntriesChars ((kv :: rest).map (fun kv => (kv.1.data, kv.2.data))) ++
          [rbraceChar])).bind finishEntries) = some (kv :: rest)
    rw [if_neg hne, hparse]
    show some ((((kv :: rest).map (fun kv => (kv.1.data, kv.2.data))).map
      (fun kv => (String.mk kv.1, String.mk kv.2))) : Store) = some (kv :: rest)
    rw [map_data_mk]

/-! ## Persistence

Modelled from the spec: the filesystem maps a path to an optional file
content; save rewrites the backing file atomically or fails with an error
that propagates; load fails open. -/

/-- A filesystem: file contents by path, none meaning the file is absent. -/
def Fs : Type := String → Option String

/-- Modelled from the spec: save serializes the full ordered mapping to the
backing file; atomically from the perspective of a reader, it either
installs the complete new content or fails, propagating the error to the
caller and changing nothing. -/
def save (writeOk : Bool) (s : Store) (path : String) (fs : Fs) : Except String Fs :=
  if writeOk then
    Except.ok (fun p => if p = path then some (serialize s) else fs p)
  else Except.error "write failure"

/-- Filesystem observed by a reader after a save attempt: the new one on
success, the untouched previous one on failure. -/
def observedFs (r : Except String Fs) (previous : Fs) : Fs :=
  match r with
  | Except.ok g => g
  | Except.error _ => previous

/-- Modelled from the spec: load reads the backing file if present and well
formed; on a missing file, a parse failure, or any I-O error (the ioError
flag) it returns an empty store and never raises. -/
def load (path : String) (ioError : Bool) (fs : Fs) : Store :=
  if ioError then []
  else
    match fs path with
    | none => []
    | some content => (parse content).getD []

/-- C2: save either fully succeeds, after which the backing file holds the
complete serialization of the store, which parses back to exactly that
store, with every other path untouched; or it fails with an error value
that reaches the caller while every file, the backing one included, keeps
its previous content byte for byte. -/
theorem save_atomic_or_propagates (writeOk : Bool) (s : Store) (path : String) (fs : Fs) :
    (∃ fs2, save writeOk s path fs = Except.ok fs2 ∧
      fs2 path = some (serialize s) ∧
      parse (serialize s) = some s ∧
      ∀ p, p ≠ path → fs2 p = fs p) ∨
    (∃ e, save writeOk s path fs = Except.error e ∧
      ∀ p, observedFs (save writeOk s path fs) fs p = fs p) := by
  cases writeOk with
  | true =>
    left
    refine ⟨_, rfl, ?_, parse_serialize s, ?_⟩
    · show (if path = path then some (serialize s) else fs path) = some (serialize s)
      rw [if_pos rfl]
    · intro p hp
      show (if p = path then some (serialize s) else fs p) = fs p
      rw [if_neg hp]
  | false =>
    right
    exact ⟨"write failure", rfl, fun p => rfl⟩

/-- Helper: the case analysis of load. -/
theorem load_cases (path : String) (fs : Fs) :
    (load path true fs = []) ∧
    (fs path = none → load path false fs = []) ∧
    (∀ c, fs path = some c → parse c = none → load path false fs = []) ∧
    (∀ c s, fs path = some c → parse c = some s → load path false fs = s) := by
  refine ⟨rfl, ?_, ?_, ?_⟩
  · intro h
    unfold load
    rw [if_neg (by simp), h]
  · intro c hc hp
    unfold load
    rw [if_neg (by simp), hc]
    show ((parse c).getD [] : Store) = []
    rw [hp]
    rfl
  · intro c s hc hp
    unfold load
    rw [if_neg (by simp), hc]
    show ((parse c).getD [] : Store) = s
    rw [hp]
    rfl

/-- C3: load never raises; an I-O error, a missing backing file or an
unparseable one all yield the empty store, and a well-formed file yields
exactly the store recorded in it. -/
theorem load_fails_open (path : String) (fs : Fs) :
    (load path true fs = []) ∧
    (fs path = none → load path false fs = []) ∧
    (∀ c, fs path = some c → parse c = none → load path false fs = []) ∧
    (∀ c s, fs path = some c → parse c = some s → load path false fs = s) :=
  load_cases path fs

/-- Witness for C3: a missing file and a malformed file each load as the
empty store, and a well-formed file loads as its recorded store. -/
theorem load_fails_open_witness :
    load "data/x.json" false (fun _ => none) = [] ∧
    load "data/x.json" false (fun _ => some "not json") = [] ∧
    load "data/x.json" false (fun _ => some (serialize [("2024-01-01", "Old")])) =
      [("2024-01-01", "Old")] := by
  refine ⟨?_, ?_, ?_⟩
  · exact (load_fails_open "data/x.json" (fun _ => none)).2.1 rfl
  · exact (load_fails_open "data/x.json"
      (fun _ => some "not json")).2.2.1 "not json" rfl (by decide)
  · exact (load_fails_open "data/x.json"
      (fun _ => some (serialize [("2024-01-01", "Old")]))).2.2.2
      (serialize [("2024-01-01", "Old")]) [("2024-01-01", "Old")] rfl
      (parse_serialize [("2024-01-01", "Old")])

/-- C5: adding a non-empty headline for the current date, saving, and
loading back yields a store whose entry for that date is the headline. -/
theorem add_save_load_roundtrip (today h : String) (s : Store) (path : String)
    (fs fs2 : Fs) (hne : h ≠ "")
    (hsave : save true (add_today today h s) path fs = Except.ok fs2) :
    lookupDate (load path false fs2) today = some h := by
  have h2 : (Except.ok (fun p => if p = path then some (serialize (add_today today h s))
      else fs p) : Except String Fs) = Except.ok fs2 := hsave
  have hfs2 : fs2 = fun p => if p = path then some (serialize (add_today today h s))
      else fs p := (Except.ok.inj h2).symm
  have hpath : fs2 path = some (serialize (add_today today h s)) := by
    rw [hfs2]
    show (if path = path then some (serialize (add_today today h s)) else fs path) =
      some (serialize (add_today today h s))
    rw [if_pos rfl]
  have hload : load path false fs2 = add_today today h s :=
    (load_cases path fs2).2.2.2 _ _ hpath (parse_serialize _)
  rw [hload]
  unfold add_today
  rw [if_neg hne]
  exact lookupDate_setEntry_self s today h

/-- Witness for C5 at a concrete date, headline, store and path. -/
theorem add_save_load_roundtrip_witness :
    lookupDate (load "data/daily_pennsylvanian_headlines.json" false
      (observedFs (save true
        (add_today "2024-01-02" "New headline" [("2024-01-01", "Old headline")])
        "data/daily_pennsylvanian_headlines.json" (fun _ => none))
        (fun _ => none))) "2024-01-02" = some "New headline" :=
  add_save_load_roundtrip "2024-01-02" "New headline" [("2024-01-01", "Old headline")]
    "data/daily_pennsylvanian_headlines.json" (fun _ => none) _ (by decide) rfl

/-! ## The scraper (embedded from src/script.py)

The two HTTP fetches, the HTML lookups and the h1 text are inputs of the
embedding: a ScrapeEnv records, for this run, what the network and the
parsed documents would yield at each step, with none standing for a failed
fetch (transport error or non-2xx status after raise_for_status) or an
absent structural element. scrape_most_read_article is then a total
function over that environment, mirroring the control flow of
script.py lines 14-74. -/

/-- The first a-tag of the Most Read section, as script.py reads it: the
href attribute may be absent. -/
structure ArticleLink where
  href : Option String

/-- The span with id mostRead, as script.py reads it: the first matching
article link may be absent. -/
structure MostReadSection where
  firstArticle : Option ArticleLink

/-- The parsed homepage: the Most Read section may be absent. -/
structure Homepage where
  mostRead : Option MostReadSection

/-- The parsed article page: the first h1 element may be absent; when
present, its text is recorded. -/
structure ArticlePage where
  h1 : Option String

/-- One run's view of the outside world: the homepage fetch-and-parse
result, and the article fetch-and-parse result for each URL. -/
structure ScrapeEnv where
  fetchHome : Option Homepage
  fetchArticle : String → Option ArticlePage

/-- script.py line 28: the fixed homepage URL. -/
def homepage_url : String := "https://www.thedp.com"

/-- Whitespace characters stripped by the Python str.strip call on line 71:
exactly the characters on which str.isspace is true, that is the ASCII
whitespace characters 9-13 and 32, the separators 28-31, next line 133,
no-break space 160, ogham space 5760, the Unicode spaces 8192-8202, the
line and paragraph separators 8232-8233, narrow no-break space 8239,
mathematical space 8287 and ideographic space 12288. -/
def pyWhitespace (c : Char) : Bool :=
  (9 ≤ c.toNat ∧ c.toNat ≤ 13) ∨ (28 ≤ c.toNat ∧ c.toNat ≤ 32) ∨
    c.toNat = 133 ∨ c.toNat = 160 ∨ c.toNat = 5760 ∨
    (8192 ≤ c.toNat ∧ c.toNat ≤ 8202) ∨ c.toNat = 8232 ∨ c.toNat = 8233 ∨
    c.toNat = 8239 ∨ c.toNat = 8287 ∨ c.toNat = 12288

/-- Python str.strip: drop leading and trailing whitespace. -/
def pyStrip (s : String) : String :=
  String.mk (((s.data.dropWhile pyWhitespace).reverse.dropWhile pyWhitespace).reverse)

/-- script.py line 52: the article URL is the homepage URL concatenated
with the raw href attribute. -/
def article_url (href : String) : String :=
  homepage_url ++ href

/-- Embedded from script.py lines 14-74: fetch the homepage, find the Most
Read section, its first link and that link's href, fetch the article page
at the concatenated URL, and return the stripped text of its first h1;
every failure path returns the empty string. -/
def scrape_most_read_article (env : ScrapeEnv) : String :=
  match env.fetchHome with
  | none => ""
  | some page =>
    match page.mostRead with
    | none => ""
    | some sec =>
      match sec.firstArticle with
      | none => ""
      | some link =>
        match link.href with
        | none => ""
        | some href =>
          if href = "" then ""
          else
            match env.fetchArticle (article_url href) with
            | none => ""
            | some art =>
              match art.h1 with
              | none => ""
              | some txt => pyStrip txt

/-- Helper: the case analysis of the scrape. -/
theorem scrape_cases (env : ScrapeEnv) :
    scrape_most_read_article env = "" ∨
    (∃ page sec link href art txt,
      env.fetchHome = some page ∧
      page.mostRead = some sec ∧
      sec.firstArticle = some link ∧
      link.href = some href ∧
      href ≠ "" ∧
      env.fetchArticle (article_url href) = some art ∧
      art.h1 = some txt ∧
      scrape_most_read_article env = pyStrip txt) := by
  cases hh : env.fetchHome with
  | none => exact Or.inl (by simp [scrape_most_read_article, hh])
  | some page =>
    cases hm : page.mostRead with
    | none => exact Or.inl (by simp [scrape_most_read_article, hh, hm])
    | some sec =>
      cases hf : sec.firstArticle with
      | none => exact Or.inl (by simp [scrape_most_read_article, hh, hm, hf])
      | some link =>
        cases hr : link.href with
        | none => exact Or.inl (by simp [scrape_most_read_article, hh, hm, hf, hr])
        | some href =>
          by_cases he : href = ""
          · exact Or.inl (by simp [scrape_most_read_article, hh, hm, hf, hr, he])
          · cases ha : env.fetchArticle (article_url href) with
            | none => exact Or.inl (by simp [scrape_most_read_article, hh, hm, hf, hr, he, ha])
            | some art =>
              cases h1 : art.h1 with
              | none =>
                exact Or.inl (by simp [scrape_most_read_article, hh, hm, hf, hr, he, ha, h1])
              | some txt =>
                refine Or.inr ⟨page, sec, link, href, art, txt, rfl, hm, hf, hr, he, ha, h1, ?_⟩
                simp [scrape_most_read_article, hh, hm, hf, hr, he, ha, h1]

/-- C7: whenever any step fails, the scrape returns the empty string: it
either returns "" or every step succeeded (homepage fetched, Most Read
section present, first link present with a non-empty href, article page
fetched at the concatenated URL, h1 present). No exception crosses its
boundary: the function is total. -/
theorem scrape_fail_yields_empty (env : ScrapeEnv) :
    scrape_most_read_article env = "" ∨
    (∃ page sec link href art txt,
      env.fetchHome = some page ∧
      page.mostRead = some sec ∧
      sec.firstArticle = some link ∧
      link.href = some href ∧
      href ≠ "" ∧
      env.fetchArticle (article_url href) = some art ∧
      art.h1 = some txt ∧
      scrape_most_read_article env = pyStrip txt) :=
  scrape_cases env

/-! ## Whitespace stripping facts for the headline text -/

theorem dropWhile_head_not (p : Char → Bool) (l : List Char) (c : Char)
    (h : (l.dropWhile p).head? = some c) : p c = false := by
  induction l with
  | nil => simp [List.dropWhile] at h
  | cons a l ih =>
    by_cases hp : p a
    · rw [List.dropWhile_cons, if_pos hp] at h
      exact ih h
    · rw [List.dropWhile_cons, if_neg hp] at h
      simp only [List.head?_cons, Option.some.injEq] at h
      rw [← h]
      exact Bool.eq_false_iff.mpr hp

theorem pyStrip_data (s : String) :
    (pyStrip s).data =
      ((s.data.dropWhile pyWhitespace).reverse.dropWhile pyWhitespace).reverse := rfl

theorem pyStrip_head_not_ws (s : String) (c : Char)
    (h : (pyStrip s).data.head? = some c) : pyWhitespace c = false := by
  rw [pyStrip_data, List.head?_reverse] at h
  obtain ⟨t, htm⟩ :=
    List.dropWhile_suffix (l := (s.data.dropWhile pyWhitespace).reverse) (p := pyWhitespace)
  have hinner_ne : (s.data.dropWhile pyWhitespace).reverse.dropWhile pyWhitespace ≠ [] := by
    intro hcon
    rw [hcon] at h
    simp at h
  have hlast : ((s.data.dropWhile pyWhitespace).reverse).getLast? = some c := by
    rw [← htm, List.getLast?_append_of_ne_nil t hinner_ne]
    exact h
  rw [List.getLast?_reverse] at hlast
  exact dropWhile_head_not pyWhitespace s.data c hlast

theorem pyStrip_getLast_not_ws (s : String) (c : Char)
    (h : (pyStrip s).data.getLast? = some c) : pyWhitespace c = false := by
  rw [pyStrip_data, List.getLast?_reverse] at h
  exact dropWhile_head_not pyWhitespace _ c h

/-- C9: every non-empty scrape result is exactly the stripped text of the
article page's first h1, and in particular it neither begins nor ends with
whitespace. -/
theorem scrape_result_is_stripped_h1 (env : ScrapeEnv)
    (hne : scrape_most_read_article env ≠ "") :
    (∃ page sec link href art txt,
      env.fetchHome = some page ∧
      page.mostRead = some sec ∧
      sec.firstArticle = some link ∧
      link.href = some href ∧
      env.fetchArticle (article_url href) = some art ∧
      art.h1 = some txt ∧
      scrape_most_read_article env = pyStrip txt) ∧
    (∀ c, (scrape_most_read_article env).data.head? = some c → pyWhitespace c = false) ∧
    (∀ c, (scrape_most_read_article env).data.getLast? = some c → pyWhitespace c = false) := by
  rcases scrape_cases env with hempty | hchain
  · exact absurd hempty hne
  · obtain ⟨page, sec, link, href, art, txt, h1, h2, h3, h4, h5, h6, h7, h8⟩ := hchain
    refine ⟨⟨page, sec, link, href, art, txt, h1, h2, h3, h4, h6, h7, h8⟩, ?_, ?_⟩
    · intro c hc
      rw [h8] at hc
      exact pyStrip_head_not_ws txt c hc
    · intro c hc
      rw [h8] at hc
      exact pyStrip_getLast_not_ws txt c hc

/-- Witness for C9 at a concrete environment whose h1 text begins with a
no-break space and ends with one, the whitespace that HTML nbsp entities
become in scraped text. -/
theorem scrape_result_is_stripped_h1_witness :
    scrape_most_read_article
      ⟨some ⟨some ⟨some ⟨some "/article/x"⟩⟩⟩,
        fun _ => some ⟨some "\u00A0 Hello World\u00A0"⟩⟩ ≠ "" ∧
    (∃ page sec link href art txt,
      (ScrapeEnv.mk (some ⟨some ⟨some ⟨some "/article/x"⟩⟩⟩)
        (fun _ => some ⟨some "\u00A0 Hello World\u00A0"⟩)).fetchHome = some page ∧
      page.mostRead = some sec ∧
      sec.firstArticle = some link ∧
      link.href = some href ∧
      (ScrapeEnv.mk (some ⟨some ⟨some ⟨some "/article/x"⟩⟩⟩)
        (fun _ => some ⟨some "\u00A0 Hello World\u00A0"⟩)).fetchArticle (article_url href) = some art ∧
      art.h1 = some txt ∧
      scrape_most_read_article
        (ScrapeEnv.mk (some ⟨some ⟨some ⟨some "/article/x"⟩⟩⟩)
          (fun _ => some ⟨some "\u00A0 Hello World\u00A0"⟩)) = pyStrip txt) ∧
    (∀ c, (scrape_most_read_article
      (ScrapeEnv.mk (some ⟨some ⟨some ⟨some "/article/x"⟩⟩⟩)
        (fun _ => some ⟨some "\u00A0 Hello World\u00A0"⟩))).data.head? = some c →
      pyWhitespace c = false) ∧
    (∀ c, (scrape_most_read_article
      (ScrapeEnv.mk (some ⟨some ⟨some ⟨some "/article/x"⟩⟩⟩)
        (fun _ => some ⟨some "\u00A0 Hello World\u00A0"⟩))).data.getLast? = some c →
      pyWhitespace c = false) := by
  have hne : scrape_most_read_article
      ⟨some ⟨some ⟨some ⟨some "/article/x"⟩⟩⟩,
        fun _ => some ⟨some "\u00A0 Hello World\u00A0"⟩⟩ ≠ "" := by decide
  exact ⟨hne, scrape_result_is_stripped_h1 _ hne⟩

/-! ## Claim C10: the article URL -/

/-- C10: the URL of the second HTTP request is always the fixed homepage
origin concatenated with the raw href attribute of the first most-read
link; the result is never the href itself, so an href that is already an
absolute URL yields a malformed concatenated URL; and the scrape consults
the article fetch exactly at that concatenated URL. -/
theorem article_url_is_raw_concat (env : ScrapeEnv) (page : Homepage)
    (sec : MostReadSection) (link : ArticleLink) (href : String)
    (hh : env.fetchHome = some page) (hm : page.mostRead = some sec)
    (hf : sec.firstArticle = some link) (hr : link.href = some href)
    (hne : href ≠ "") :
    article_url href = "https://www.thedp.com" ++ href ∧
    article_url href ≠ href ∧
    (env.fetchArticle (article_url href) = none → scrape_most_read_article env = "") := by
  refine ⟨rfl, ?_, ?_⟩
  · intro hcon
    have hlen := congrArg String.length hcon
    rw [article_url, String.length_append] at hlen
    have hpos : 0 < homepage_url.length := by decide
    omega
  · intro ha
    simp [scrape_most_read_article, hh, hm, hf, hr, hne, ha]

/-- Witness for C10 at an href that is itself an absolute URL. -/
theorem article_url_is_raw_concat_witness :
    article_url "https://www.thedp.com/article/abc" =
      "https://www.thedp.com" ++ "https://www.thedp.com/article/abc" ∧
    article_url "https://www.thedp.com/article/abc" ≠ "https://www.thedp.com/article/abc" ∧
    ((ScrapeEnv.mk (some ⟨some ⟨some ⟨some "https://www.thedp.com/article/abc"⟩⟩⟩)
        (fun _ => none)).fetchArticle
        (article_url "https://www.thedp.com/article/abc") = none →
      scrape_most_read_article
        (ScrapeEnv.mk (some ⟨some ⟨some ⟨some "https://www.thedp.com/article/abc"⟩⟩⟩)
          (fun _ => none)) = "") :=
  article_url_is_raw_concat
    (ScrapeEnv.mk (some ⟨some ⟨some ⟨some "https://www.thedp.com/article/abc"⟩⟩⟩)
      (fun _ => none))
    ⟨some ⟨some ⟨some "https://www.thedp.com/article/abc"⟩⟩⟩
    ⟨some ⟨some "https://www.thedp.com/article/abc"⟩⟩
    ⟨some "https://www.thedp.com/article/abc"⟩
    "https://www.thedp.com/article/abc" rfl rfl rfl rfl (by decide)

/-! ## The orchestrator (embedded from the main block of src/script.py)

The try-except around the scrape (lines 98-102) turns an exception into a
None data point; the guard on line 105 mutates and saves only when the
data point is truthy (a non-empty string). -/

/-- Embedded from script.py lines 98-102: the data point is None when the
scrape raised, otherwise the string the scrape returned. -/
def data_point (scrapeExn : Bool) (env : ScrapeEnv) : Option String :=
  if scrapeExn then none else some (scrape_most_read_article env)

/-- Embedded from script.py lines 105-108: when the data point is truthy
(a non-empty string), add it for today and save; otherwise touch nothing.
Returns the in-memory store and the save result (the untouched filesystem
when no save ran). -/
def runMutation (today : String) (dp : Option String) (s : Store) (writeOk : Bool)
    (path : String) (fs : Fs) : Store × Except String Fs :=
  match dp with
  | none => (s, Except.ok fs)
  | some h =>
    if h = "" then (s, Except.ok fs)
    else (add_today today h s, save writeOk (add_today today h s) path fs)

/-- Helper: the case analysis of the mutation step. -/
theorem runMutation_cases (today : String) (scrapeExn : Bool)
    (env : ScrapeEnv) (s : Store) (writeOk : Bool) (path : String) (fs : Fs) :
    (scrapeExn = true →
      runMutation today (data_point scrapeExn env) s writeOk path fs = (s, Except.ok fs)) ∧
    (scrapeExn = false → scrape_most_read_article env = "" →
      runMutation today (data_point scrapeExn env) s writeOk path fs = (s, Except.ok fs)) ∧
    (scrapeExn = false → scrape_most_read_article env ≠ "" →
      runMutation today (data_point scrapeExn env) s writeOk path fs =
        (add_today today (scrape_most_read_article env) s,
          save writeOk (add_today today (scrape_most_read_article env) s) path fs)) := by
  refine ⟨?_, ?_, ?_⟩
  · intro hx
    simp [data_point, hx, runMutation]
  · intro hx hempty
    simp [data_point, hx, runMutation, hempty]
  · intro hx hne
    simp [data_point, hx, runMutation, hne]

/-- C6: add_today and save run exactly when the extraction produced a
non-empty headline; an empty extraction result, and an exception during
extraction (caught at the orchestrator boundary), leave the store and the
backing file unchanged. -/
theorem orchestrator_mutates_iff_headline (today : String) (scrapeExn : Bool)
    (env : ScrapeEnv) (s : Store) (writeOk : Bool) (path : String) (fs : Fs) :
    (scrapeExn = true →
      runMutation today (data_point scrapeExn env) s writeOk path fs = (s, Except.ok fs)) ∧
    (scrapeExn = false → scrape_most_read_article env = "" →
      runMutation today (data_point scrapeExn env) s writeOk path fs = (s, Except.ok fs)) ∧
    (scrapeExn = false → scrape_most_read_article env ≠ "" →
      runMutation today (data_point scrapeExn env) s writeOk path fs =
        (add_today today (scrape_most_read_article env) s,
          save writeOk (add_today today (scrape_most_read_article env) s) path fs)) :=
  runMutation_cases today scrapeExn env s writeOk path fs

/-- Witness for C6: a raising extraction and an empty extraction leave a
concrete store and filesystem unchanged; a non-empty extraction mutates. -/
theorem orchestrator_mutates_iff_headline_witness :
    runMutation "2024-01-02" (data_point true ⟨none, fun _ => none⟩)
      [("2024-01-01", "Old")] true "data/d.json" (fun _ => none) =
      ([("2024-01-01", "Old")], Except.ok (fun _ => none)) ∧
    runMutation "2024-01-02" (data_point false ⟨none, fun _ => none⟩)
      [("2024-01-01", "Old")] true "data/d.json" (fun _ => none) =
      ([("2024-01-01", "Old")], Except.ok (fun _ => none)) ∧
    runMutation "2024-01-02"
      (data_point false ⟨some ⟨some ⟨some ⟨some "/a"⟩⟩⟩, fun _ => some ⟨some "T"⟩⟩)
      [("2024-01-01", "Old")] true "data/d.json" (fun _ => none) =
      (add_today "2024-01-02"
        (scrape_most_read_article ⟨some ⟨some ⟨some ⟨some "/a"⟩⟩⟩, fun _ => some ⟨some "T"⟩⟩)
        [("2024-01-01", "Old")],
        save true (add_today "2024-01-02"
          (scrape_most_read_article ⟨some ⟨some ⟨some ⟨some "/a"⟩⟩⟩, fun _ => some ⟨some "T"⟩⟩)
          [("2024-01-01", "Old")]) "data/d.json" (fun _ => none)) := by
  refine ⟨?_, ?_, ?_⟩
  · exact (orchestrator_mutates_iff_headline "2024-01-02" true ⟨none, fun _ => none⟩
      [("2024-01-01", "Old")] true "data/d.json" (fun _ => none)).1 rfl
  · exact (orchestrator_mutates_iff_headline "2024-01-02" false ⟨none, fun _ => none⟩
      [("2024-01-01", "Old")] true "data/d.json" (fun _ => none)).2.1 rfl rfl
  · exact (orchestrator_mutates_iff_headline "2024-01-02" false
      ⟨some ⟨some ⟨some ⟨some "/a"⟩⟩⟩, fun _ => some ⟨some "T"⟩⟩
      [("2024-01-01", "Old")] true "data/d.json" (fun _ => none)).2.2 rfl (by decide)

/-! ## Process outcome (embedded from the main block of src/script.py)

Lines 84-88: a failure to create the data directory logs and exits 1.
Lines 123-125: at the end of every run the data file is opened and its
contents logged; this read is not guarded, so when the file does not exist
(possible when no mutation occurred and nothing was persisted before) the
FileNotFoundError escapes and the interpreter terminates with exit
status 1, the status CPython assigns to an uncaught exception.  A save
failure on line 107 is likewise unguarded.  Otherwise the script falls off
the end and exits 0. -/

/-- script.py line 93: the fixed backing path of the monitor. -/
def backing_path : String := "data/daily_pennsylvanian_headlines.json"

/-- How a run of the script terminates: an explicit exit status, or an
exception that escapes the main block. -/
inductive RunOutcome where
  | exitCode (n : Nat)
  | uncaughtError (msg : String)
deriving DecidableEq

/-- The exit status the operating system observes: CPython exits with
status 1 when an exception escapes. -/
def processExitCode : RunOutcome → Nat
  | RunOutcome.exitCode n => n
  | RunOutcome.uncaughtError _ => 1

/-- Embedded from script.py lines 77-129: create the data directory (exit 1
on failure), load the monitor, scrape inside try-except, mutate and save
only on a truthy data point, then open and log the data file (uncaught
FileNotFoundError when it is absent); finally fall off the end with exit
status 0. -/
def mainRun (mkdirOk : Bool) (today : String) (scrapeExn : Bool) (env : ScrapeEnv)
    (loadIoError : Bool) (writeOk : Bool) (fs : Fs) : RunOutcome × Fs :=
  if mkdirOk = false then (RunOutcome.exitCode 1, fs)
  else
    match runMutation today (data_point scrapeExn env)
        (load backing_path loadIoError fs) writeOk backing_path fs with
    | (_, Except.error e) => (RunOutcome.uncaughtError e, fs)
    | (_, Except.ok fs2) =>
      match fs2 backing_path with
      | some _ => (RunOutcome.exitCode 0, fs2)
      | none => (RunOutcome.uncaughtError "FileNotFoundError", fs2)

/-- C8 counterexample: a run in which the data directory is created, the
scrape returns no headline and no store mutation occurs, but the process
exits with status 1, not 0: with no previously persisted backing file, the
unguarded read of the data file at the end of the script raises. -/
theorem main_exit_zero_counterexample :
    scrape_most_read_article ⟨none, fun _ => none⟩ = "" ∧
    (mainRun true "2024-01-02" false ⟨none, fun _ => none⟩ false true (fun _ => none)).1 =
      RunOutcome.uncaughtError "FileNotFoundError" ∧
    processExitCode (mainRun true "2024-01-02" false ⟨none, fun _ => none⟩ false true
      (fun _ => none)).1 = 1 := by
  refine ⟨rfl, ?_, ?_⟩ <;> rfl

/-- C8 amended: the process exits 1 when the data directory cannot be
created; a run without a store mutation exits 0 exactly when the backing
file already exists, and exits 1 (uncaught FileNotFoundError) when it does
not; a run that mutates and saves successfully exits 0. -/
theorem main_exit_codes (mkdirOk : Bool) (today : String) (scrapeExn : Bool)
    (env : ScrapeEnv) (loadIoError : Bool) (writeOk : Bool) (fs : Fs) :
    (mkdirOk = false →
      (mainRun mkdirOk today scrapeExn env loadIoError writeOk fs).1 =
        RunOutcome.exitCode 1) ∧
    (mkdirOk = true → (scrapeExn = true ∨ scrape_most_read_article env = "") →
      (∃ c, fs backing_path = some c) →
      (mainRun mkdirOk today scrapeExn env loadIoError writeOk fs).1 =
        RunOutcome.exitCode 0) ∧
    (mkdirOk = true → (scrapeExn = true ∨ scrape_most_read_article env = "") →
      fs backing_path = none →
      processExitCode (mainRun mkdirOk today scrapeExn env loadIoError writeOk fs).1 = 1) ∧
    (mkdirOk = true → scrapeExn = false → scrape_most_read_article env ≠ "" →
      writeOk = true →
      (mainRun mkdirOk today scrapeExn env loadIoError writeOk fs).1 =
        RunOutcome.exitCode 0) := by
  refine ⟨?_, ?_, ?_, ?_⟩
  · intro hmk
    simp [mainRun, hmk]
  · intro hmk hnh ⟨c, hc⟩
    have hrm : runMutation today (data_point scrapeExn env)
        (load backing_path loadIoError fs) writeOk backing_path fs =
        (load backing_path loadIoError fs, Except.ok fs) := by
      rcases hnh with hx | hempty
      · exact (runMutation_cases today scrapeExn env _ writeOk
          backing_path fs).1 hx
      · by_cases hx : scrapeExn = true
        · exact (runMutation_cases today scrapeExn env _ writeOk
            backing_path fs).1 hx
        · exact (runMutation_cases today scrapeExn env _ writeOk
            backing_path fs).2.1 (Bool.not_eq_true scrapeExn ▸ hx) hempty
    simp [mainRun, hmk, hrm, hc]
  · intro hmk hnh hc
    have hrm : runMutation today (data_point scrapeExn env)
        (load backing_path loadIoError fs) writeOk backing_path fs =
        (load backing_path loadIoError fs, Except.ok fs) := by
      rcases hnh with hx | hempty
      · exact (runMutation_cases today scrapeExn env _ writeOk
          backing_path fs).1 hx
      · by_cases hx : scrapeExn = true
        · exact (runMutation_cases today scrapeExn env _ writeOk
            backing_path fs).1 hx
        · exact (runMutation_cases today scrapeExn env _ writeOk
            backing_path fs).2.1 (Bool.not_eq_true scrapeExn ▸ hx) hempty
    simp [mainRun, hmk, hrm, hc, processExitCode]
  · intro hmk hx hne hw
    have hrm := (runMutation_cases today scrapeExn env
      (load backing_path loadIoError fs) writeOk backing_path fs).2.2 hx hne
    rw [hw] at hrm
    have hsave : save true (add_today today (scrape_most_read_article env)
        (load backing_path loadIoError fs)) backing_path fs =
        Except.ok (fun p => if p = backing_path then
          some (serialize (add_today today (scrape_most_read_article env)
            (load backing_path loadIoError fs))) else fs p) := rfl
    rw [hsave] at hrm
    simp [mainRun, hmk, hw, hrm]

/-- Witness for the amended C8 at concrete runs: a failed directory
creation exits 1; a no-headline run with an existing backing file exits 0;
a successful scrape-and-save run exits 0. -/
theorem main_exit_codes_witness :
    (mainRun false "2024-01-02" false ⟨none, fun _ => none⟩ false true
      (fun _ => none)).1 = RunOutcome.exitCode 1 ∧
    (mainRun true "2024-01-02" true ⟨none, fun _ => none⟩ false true
      (fun _ => some (serialize []))).1 = RunOutcome.exitCode 0 ∧
    (mainRun true "2024-01-02" false ⟨some ⟨some ⟨some ⟨some "/a"⟩⟩⟩, fun _ => some ⟨some "T"⟩⟩
      false true (fun _ => none)).1 = RunOutcome.exitCode 0 := by
  refine ⟨?_, ?_, ?_⟩
  · exact (main_exit_codes false "2024-01-02" false ⟨none, fun _ => none⟩ false true
      (fun _ => none)).1 rfl
  · exact (main_exit_codes true "2024-01-02" true ⟨none, fun _ => none⟩ false true
      (fun _ => some (serialize []))).2.1 rfl (Or.inl rfl) ⟨serialize [], rfl⟩
  · exact (main_exit_codes true "2024-01-02" false
      ⟨some ⟨some ⟨some ⟨some "/a"⟩⟩⟩, fun _ => some ⟨some "T"⟩⟩ false true
      (fun _ => none)).2.2.2 rfl rfl (by decide) rfl
